import Mathlib

/-
  Shallow embedding of the post repository of the blog-platform-api
  (src/posts/repository.ts) over a relational store with four tables
  (posts, categories, tags, posts_to_tags).  Storage statements are
  modelled as state transformers that may raise a storage error
  (structure Err, carrying the optional engine error code); the
  repository operations wrap their statement sequences in the same
  try/catch structure as the source, classifying caught errors through
  the literal switch statements of the source.  A fault schedule on the
  state injects arbitrary engine failures before individual statements,
  so that the propagation-policy claims quantify over every storage
  failure, not only constraint violations.
-/

namespace BlogApi

/-- Row of the post table: the drizzle schema columns used by the repository
(id, title, normalizedTitle, slug, content, published, createdAt, updatedAt,
categoryId). -/
structure PostRow where
  id : String
  title : String
  normalizedTitle : String
  slug : String
  content : String
  published : Bool
  createdAt : Nat
  updatedAt : Nat
  categoryId : Option String
deriving DecidableEq, Repr

/-- Row of the category table. -/
structure CategoryRow where
  id : String
  name : String
deriving DecidableEq, Repr

/-- Row of the tag table. -/
structure TagRow where
  id : String
  name : String
deriving DecidableEq, Repr

/-- Row of the posts_to_tags association table (postId, tagId). -/
structure PostTagRow where
  postId : String
  tagId : String
deriving DecidableEq, Repr

/-- The relational store: the four tables, a counter from which fresh post
ids are generated at insertion, and the current clock used for the
system-assigned timestamps. -/
structure DB where
  posts : List PostRow
  categories : List CategoryRow
  tags : List TagRow
  postsToTags : List PostTagRow
  nextId : Nat
  now : Nat
deriving DecidableEq, Repr

/-- A raised storage error as the repository sees it: the catch blocks read
only the `code` property (pg DatabaseError).  Errors that are not engine
errors (a TypeError from reading a property of undefined, or the drizzle
client-side rejection of an empty values list) carry no code. -/
structure Err where
  code : Option String
deriving DecidableEq, Repr

/-- Execution state: the store plus a schedule of injected engine faults.
Before a statement is sent to the store, the head of the schedule is
consumed; a `some e` entry makes that statement fail with `e`. -/
structure St where
  db : DB
  faults : List (Option Err)
deriving DecidableEq, Repr

/-- Run one storage statement `k` against the store, consuming one entry of
the fault schedule first.  A failing statement leaves the store unchanged
(single statements are atomic in the engine). -/
def applyStmt {α : Type} (k : DB → Except Err (α × DB)) (db : DB)
    (fs : List (Option Err)) : Except Err α × St :=
  match k db with
  | .error e => (.error e, { db := db, faults := fs })
  | .ok (a, db) => (.ok a, { db := db, faults := fs })

/-- Wrap a statement body with fault injection from the schedule. -/
def runStmt {α : Type} (k : DB → Except Err (α × DB)) (s : St) :
    Except Err α × St :=
  match s.faults with
  | [] => applyStmt k s.db []
  | none :: fs => applyStmt k s.db fs
  | some e :: fs => (.error e, { db := s.db, faults := fs })

/-- Modelled from the spec: `normalizeString` lives in src/lib (not under
src/ here); the spec describes it as a deterministic case- and
whitespace-insensitive canonical form of the title, pure and total. -/
def normalizeString (s : String) : String :=
  String.mk ((s.data.filter (fun c => c != ' ')).map Char.toLower)

/-- Modelled from the spec: the `slug` package is outside the repository;
the spec describes a URL-safe derived string from the title, collisions
permitted. -/
def slugOf (s : String) : String :=
  String.mk (s.data.map (fun c => if c = ' ' then '-' else c.toLower))

/-- Fresh post id generated by the store at insertion. -/
def freshPostId (n : Nat) : String :=
  "post#" ++ toString n

/-- Whether an optional identifier parameter is present but rejected by the
store as malformed (postgres raises 22P02 while parsing parameters). -/
def invalidParam (v : String → Bool) : Option String → Bool
  | none => false
  | some c => !(v c)

/-- Whether a supplied category reference violates the foreign key. -/
def fkMissing (db : DB) : Option String → Bool
  | none => false
  | some c => !(db.categories.any (fun cat => cat.id == c))

/-- Boolean membership in the association table. -/
def memRow (l : List PostTagRow) (r : PostTagRow) : Bool :=
  l.any (fun x => decide (x = r))

/-- Boolean duplicate test on a batch of association rows. -/
def hasDupRow : List PostTagRow → Bool
  | [] => false
  | r :: rest => memRow rest r || hasDupRow rest

/-- Statement: insert a post row (createPost, repository.ts lines 120-133).
Parameter parsing rejects a malformed categoryId (22P02); the unique index
on normalizedTitle raises 23505; the category foreign key raises 23503.
The store generates the id and assigns the timestamps. -/
def newPostRow (title content : String) (published : Option Bool)
    (categoryId : Option String) (db : DB) : PostRow :=
  { id := freshPostId db.nextId, title := title,
    normalizedTitle := normalizeString title, slug := slugOf title,
    content := content, published := published.getD false,
    createdAt := db.now, updatedAt := db.now,
    categoryId := categoryId }

def insertPostBody (v : String → Bool) (title content : String)
    (published : Option Bool) (categoryId : Option String) (db : DB) :
    Except Err (PostRow × DB) :=
  if invalidParam v categoryId then .error { code := some "22P02" }
  else if db.posts.any
      (fun p => p.normalizedTitle == normalizeString title) then
    .error { code := some "23505" }
  else if fkMissing db categoryId then .error { code := some "23503" }
  else
    .ok (newPostRow title content published categoryId db,
         { db with posts := db.posts ++ [newPostRow title content published categoryId db],
                   nextId := db.nextId + 1 })

def insertPostStmt (v : String → Bool) (title content : String)
    (published : Option Bool) (categoryId : Option String) (s : St) :
    Except Err PostRow × St :=
  runStmt (insertPostBody v title content published categoryId) s

/-- Statement: update the post row matching `id` and return the updated rows
(updatePost, repository.ts lines 213-227).  Malformed id or categoryId is
rejected while parsing (22P02) even when no row matches; when at least one
row is written, a null published violates the not-null column (23502), a
normalizedTitle collision with another row raises 23505, and a missing
category raises 23503.  With no matching row the statement succeeds and
returns the empty row list. -/
def updatePostBody (v : String → Bool) (id title content : String)
    (published : Option Bool) (categoryId : Option String) (db : DB) :
    Except Err (List PostRow × DB) :=
  if !(v id) then .error { code := some "22P02" }
  else if invalidParam v categoryId then .error { code := some "22P02" }
  else if !(db.posts.any (fun p => p.id == id)) then .ok ([], db)
  else if published.isNone then .error { code := some "23502" }
  else if db.posts.any (fun p =>
      p.id != id && p.normalizedTitle == normalizeString title) then
    .error { code := some "23505" }
  else if fkMissing db categoryId then .error { code := some "23503" }
  else
    let upd := fun (p : PostRow) =>
      if p.id == id then
        { p with title := title,
                 normalizedTitle := normalizeString title,
                 slug := slugOf title, content := content,
                 published := published.getD false,
                 categoryId := categoryId }
      else p
    .ok ((db.posts.map upd).filter (fun p => p.id == id),
         { db with posts := db.posts.map upd })

def updatePostStmt (v : String → Bool) (id title content : String)
    (published : Option Bool) (categoryId : Option String) (s : St) :
    Except Err (List PostRow) × St :=
  runStmt (updatePostBody v id title content published categoryId) s

/-- Statement: select the name of a category by id (repository.ts lines
136-139 and 250-253). -/
def selectCategoryNameBody (v : String → Bool) (cid : String) (db : DB) :
    Except Err (List String × DB) :=
  if !(v cid) then .error { code := some "22P02" }
  else
    .ok (((db.categories.filter (fun c => c.id == cid)).map
      (fun c => c.name)), db)

def selectCategoryNameStmt (v : String → Bool) (cid : String) (s : St) :
    Except Err (List String) × St :=
  runStmt (selectCategoryNameBody v cid) s

/-- Statement: select the tag rows whose id is in the supplied list
(repository.ts lines 149-152 and 235-238).  A malformed id anywhere in the
list is rejected while parsing (22P02). -/
def selectTagsBody (v : String → Bool) (tagIds : List String) (db : DB) :
    Except Err (List TagRow × DB) :=
  if tagIds.any (fun t => !(v t)) then .error { code := some "22P02" }
  else .ok (db.tags.filter (fun t => tagIds.contains t.id), db)

def selectTagsStmt (v : String → Bool) (tagIds : List String) (s : St) :
    Except Err (List TagRow) × St :=
  runStmt (selectTagsBody v tagIds) s

/-- Statement: insert a batch of association rows (repository.ts lines
154-158 and 240-244).  The drizzle client rejects an empty values list
before anything is sent to the store, throwing a plain Error with no code;
a duplicate pair, against the table or within the batch, violates the
composite primary key (23505). -/
def insertPostsToTagsBody (rows : List PostTagRow) (db : DB) :
    Except Err (Unit × DB) :=
  if rows.any (fun r => memRow db.postsToTags r) || hasDupRow rows then
    .error { code := some "23505" }
  else .ok ((), { db with postsToTags := db.postsToTags ++ rows })

def insertPostsToTagsStmt (rows : List PostTagRow) (s : St) :
    Except Err Unit × St :=
  if rows.isEmpty then (.error { code := none }, s)
  else runStmt (insertPostsToTagsBody rows) s

/-- Statement: delete every association row of a post (updatePost,
repository.ts line 230). -/
def deletePostsToTagsBody (v : String → Bool) (pid : String) (db : DB) :
    Except Err (Unit × DB) :=
  if !(v pid) then .error { code := some "22P02" }
  else
    .ok ((), { db with postsToTags :=
      db.postsToTags.filter (fun r => r.postId != pid) })

def deletePostsToTagsStmt (v : String → Bool) (pid : String) (s : St) :
    Except Err Unit × St :=
  runStmt (deletePostsToTagsBody v pid) s

/-- Resolved tag names of a post, as the inner join of the association
table with the tag table produces them. -/
def tagNamesFor (db : DB) (pid : String) : List String :=
  (db.postsToTags.filter (fun r => r.postId == pid)).filterMap
    (fun r => (db.tags.find? (fun t => t.id == r.tagId)).map
      (fun t => t.name))

/-- Resolved category name of an optional category reference, as the left
join with the category table produces it. -/
def joinName (db : DB) (oc : Option String) : Option String :=
  oc.bind (fun c =>
    (db.categories.find? (fun cat => cat.id == c)).map (fun cat => cat.name))

/-- Statement: select the post row with the given id together with its left
joined category name, limited to one row (getPostById, repository.ts lines
54-63). -/
def selectPostByIdBody (v : String → Bool) (id : String) (db : DB) :
    Except Err (List (PostRow × Option String) × DB) :=
  if !(v id) then .error { code := some "22P02" }
  else
    .ok (((db.posts.filter (fun p => p.id == id)).map
      (fun p => (p, joinName db p.categoryId))).take 1, db)

def selectPostByIdStmt (v : String → Bool) (id : String) (s : St) :
    Except Err (List (PostRow × Option String)) × St :=
  runStmt (selectPostByIdBody v id) s

/-- Statement: select the names of the tags associated with a post
(getPostById, repository.ts lines 73-77). -/
def selectTagNamesBody (v : String → Bool) (pid : String) (db : DB) :
    Except Err (List String × DB) :=
  if !(v pid) then .error { code := some "22P02" }
  else .ok (tagNamesFor db pid, db)

def selectTagNamesStmt (v : String → Bool) (pid : String) (s : St) :
    Except Err (List String) × St :=
  runStmt (selectTagNamesBody v pid) s

/-- Statement: delete the post row matching `id`, returning the deleted ids
(deletePost, repository.ts lines 301-304).  Modelled from the spec: the
drizzle schema file configuring the tables is not under src/; per the spec,
deleting a post cascade-removes its tag associations at the storage level
("either via an explicit prior delete or a storage-level cascade" — the
repository issues no explicit delete), so the statement also drops the
association rows of the deleted posts. -/
def deletePostBody (v : String → Bool) (id : String) (db : DB) :
    Except Err (List String × DB) :=
  if !(v id) then .error { code := some "22P02" }
  else
    let gone := (db.posts.filter (fun p => p.id == id)).map (fun p => p.id)
    .ok (gone,
      { db with posts := db.posts.filter (fun p => p.id != id),
                postsToTags := db.postsToTags.filter
                  (fun r => !(gone.contains r.postId)) })

def deletePostStmt (v : String → Bool) (id : String) (s : St) :
    Except Err (List String) × St :=
  runStmt (deletePostBody v id) s

/-- Error classifier of getPostById (repository.ts lines 88-99): 22P02 maps
to post_not_found, everything else to cannot_get_post. -/
def classifyGetPostById (e : Err) : String :=
  match e.code with
  | some "22P02" => "post_not_found"
  | _ => "cannot_get_post"

/-- Error classifier of createPost (repository.ts lines 172-187): 23505
maps to duplicate_post_title, 23503 and 22P02 to category_not_found,
everything else to cannot_create_post. -/
def classifyCreatePost (e : Err) : String :=
  match e.code with
  | some "23505" => "duplicate_post_title"
  | some "23503" => "category_not_found"
  | some "22P02" => "category_not_found"
  | _ => "cannot_create_post"

/-- Error classifier of updatePost (repository.ts lines 274-289): 23505
maps to duplicate_post_title, 23503 and 22P02 to category_not_found,
everything else to cannot_update_post. -/
def classifyUpdatePost (e : Err) : String :=
  match e.code with
  | some "23505" => "duplicate_post_title"
  | some "23503" => "category_not_found"
  | some "22P02" => "category_not_found"
  | _ => "cannot_update_post"

/-- Error classifier of deletePost (repository.ts lines 323-335): 22P02
maps to post_not_found, everything else to cannot_delete_post. -/
def classifyDeletePost (e : Err) : String :=
  match e.code with
  | some "22P02" => "post_not_found"
  | _ => "cannot_delete_post"

/-- Payload returned by getPostById, createPost and updatePost on success.
The TypeScript result objects differ in shape between branches: `category`
is the resolved name or null, and `tags` is `none` exactly when the source
object carries no tags property at all. -/
structure PostData where
  id : String
  title : String
  slug : String
  content : String
  published : Bool
  createdAt : Nat
  updatedAt : Nat
  categoryId : Option String
  category : Option String
  tags : Option (List String)
deriving DecidableEq, Repr

/-- Build the success payload from a returned post row (the spread
`{...post}` of the source) plus the category and tags fields of the
returning branch. -/
def mkData (p : PostRow) (category : Option String)
    (tags : Option (List String)) : PostData :=
  { id := p.id, title := p.title, slug := p.slug, content := p.content,
    published := p.published, createdAt := p.createdAt,
    updatedAt := p.updatedAt, categoryId := p.categoryId,
    category := category, tags := tags }

/-- Element of the list returned by getPosts: the selected post columns
with the related category name and tag names (repository.ts lines 17-46). -/
structure PostListItem where
  id : String
  title : String
  slug : String
  content : String
  published : Bool
  createdAt : Nat
  updatedAt : Nat
  category : Option String
  tags : List String
deriving DecidableEq, Repr

/-- getPosts (repository.ts lines 17-46): a single findMany statement with
related category and tag names.  The source wraps it in no try/catch, so
its result type still exposes the raw storage error. -/
def getPosts (s : St) : Except Err (List PostListItem) × St :=
  runStmt (fun db =>
    .ok (db.posts.map (fun p =>
      { id := p.id, title := p.title, slug := p.slug, content := p.content,
        published := p.published, createdAt := p.createdAt,
        updatedAt := p.updatedAt, category := joinName db p.categoryId,
        tags := tagNamesFor db p.id }), db)) s

/-- getPostById (repository.ts lines 50-103).  When the select returns no
row the source manufactures an error with code 22P02 and throws it; every
caught error goes through classifyGetPostById. -/
def getPostById (v : String → Bool) (id : String) (s : St) :
    (Option PostData × Option String) × St :=
  match selectPostByIdStmt v id s with
  | (.error e, s) => ((none, some (classifyGetPostById e)), s)
  | (.ok rows, s) =>
    match rows.head? with
    | none =>
      ((none, some (classifyGetPostById { code := some "22P02" })), s)
    | some (p, catName) =>
      match selectTagNamesStmt v p.id s with
      | (.error e, s) => ((none, some (classifyGetPostById e)), s)
      | (.ok names, s) =>
        ((some (mkData p catName (some names)), none), s)

/-- Argument object of createPost (repository.ts lines 110-116). -/
structure CreateArgs where
  title : String
  content : String
  categoryId : Option String
  published : Option Bool
  tagIds : List String
deriving Repr

/-- Tag branch of createPost (repository.ts lines 146-166): reached when
the inserted row has no truthy categoryId; resolves the supplied tag ids
against the tag table, inserts the association rows, and returns the data
with category null and the resolved tag names. -/
def createPostTagBranch (v : String → Bool) (post : PostRow)
    (tagIds : List String) (s : St) :
    (Option PostData × Option String) × St :=
  if tagIds.length > 0 then
    match selectTagsStmt v tagIds s with
    | (.error e, s) => ((none, some (classifyCreatePost e)), s)
    | (.ok selectedTags, s) =>
      match insertPostsToTagsStmt
          (selectedTags.map (fun t => { postId := post.id, tagId := t.id }))
          s with
      | (.error e, s) => ((none, some (classifyCreatePost e)), s)
      | (.ok _, s) =>
        ((some (mkData post none (some (selectedTags.map (fun t => t.name)))),
          none), s)
  else
    ((some (mkData post none (some [])), none), s)

/-- createPost (repository.ts lines 110-191).  After a successful insert
the source tests `if (post.categoryId)` — JavaScript truthiness, under
which the empty string also falls through to the tag branch.  In the
category branch `category.name` is read from the destructured head of the
select result; when that row is absent the property read throws a
TypeError carrying no code. -/
def createPost (v : String → Bool) (data : CreateArgs) (s : St) :
    (Option PostData × Option String) × St :=
  match insertPostStmt v data.title data.content data.published
      data.categoryId s with
  | (.error e, s) => ((none, some (classifyCreatePost e)), s)
  | (.ok post, s) =>
    match post.categoryId with
    | some cid =>
      if cid.isEmpty then createPostTagBranch v post data.tagIds s
      else
        match selectCategoryNameStmt v cid s with
        | (.error e, s) => ((none, some (classifyCreatePost e)), s)
        | (.ok names, s) =>
          match names.head? with
          | none => ((none, some (classifyCreatePost { code := none })), s)
          | some nm => ((some (mkData post (some nm) none), none), s)
    | none => createPostTagBranch v post data.tagIds s

/-- Argument object of updatePost (repository.ts lines 200-206). -/
structure UpdateArgs where
  title : String
  content : String
  categoryId : Option String
  published : Option Bool
  tagIds : Option (List String)
deriving Repr

/-- Final step of updatePost (repository.ts lines 249-268): when the
updated row has a truthy categoryId, resolve its name and return the data
with the tags field; otherwise return the data with category null and no
tags field at all. -/
def updatePostCategoryStep (v : String → Bool) (post : PostRow)
    (tagNames : List String) (s : St) :
    (Option PostData × Option String) × St :=
  match post.categoryId with
  | some cid =>
    if cid.isEmpty then ((some (mkData post none none), none), s)
    else
      match selectCategoryNameStmt v cid s with
      | (.error e, s) => ((none, some (classifyUpdatePost e)), s)
      | (.ok names, s) =>
        match names.head? with
        | none => ((none, some (classifyUpdatePost { code := none })), s)
        | some nm => ((some (mkData post (some nm) (some tagNames)), none), s)
  | none => ((some (mkData post none none), none), s)

/-- updatePost (repository.ts lines 198-293).  The update statement with no
matching row returns an empty row list; the destructured `post` is then
undefined and the first property read on it (post.id inside the tagIds
branch, or post.categoryId) throws a TypeError with no code before any
further statement runs.  With tagIds supplied the prior associations are
deleted, then, when the list is non-empty, the resolved tags are inserted. -/
def updatePost (v : String → Bool) (id : String) (data : UpdateArgs)
    (s : St) : (Option PostData × Option String) × St :=
  match updatePostStmt v id data.title data.content data.published
      data.categoryId s with
  | (.error e, s) => ((none, some (classifyUpdatePost e)), s)
  | (.ok rows, s) =>
    match rows.head? with
    | none => ((none, some (classifyUpdatePost { code := none })), s)
    | some post =>
      match data.tagIds with
      | some tagIds =>
        match deletePostsToTagsStmt v post.id s with
        | (.error e, s) => ((none, some (classifyUpdatePost e)), s)
        | (.ok _, s) =>
          if tagIds.length > 0 then
            match selectTagsStmt v tagIds s with
            | (.error e, s) => ((none, some (classifyUpdatePost e)), s)
            | (.ok selectedTags, s) =>
              match insertPostsToTagsStmt
                  (selectedTags.map
                    (fun t => { postId := post.id, tagId := t.id })) s with
              | (.error e, s) => ((none, some (classifyUpdatePost e)), s)
              | (.ok _, s) =>
                updatePostCategoryStep v post
                  (selectedTags.map (fun t => t.name)) s
          else updatePostCategoryStep v post [] s
      | none => updatePostCategoryStep v post [] s

/-- deletePost (repository.ts lines 297-339).  When the delete returns no
row the source manufactures an error with code 22P02 and throws it. -/
def deletePost (v : String → Bool) (id : String) (s : St) :
    (Option String × Option String) × St :=
  match deletePostStmt v id s with
  | (.error e, s) => ((none, some (classifyDeletePost e)), s)
  | (.ok gone, s) =>
    match gone.head? with
    | none =>
      ((none, some (classifyDeletePost { code := some "22P02" })), s)
    | some pid => ((some pid, none), s)

/-- Store well-formedness: distinct primary keys per table, ids accepted by
the store and non-empty (store-generated identifiers are never the empty
string), referential integrity of the association table, and freshness of
the next generated post id. -/
def WF (v : String → Bool) (db : DB) : Prop :=
  (db.posts.map (fun p => p.id)).Nodup ∧
  (db.categories.map (fun c => c.id)).Nodup ∧
  (db.tags.map (fun t => t.id)).Nodup ∧
  (∀ p ∈ db.posts, p.id ≠ "" ∧ v p.id = true) ∧
  (∀ c ∈ db.categories, c.id ≠ "" ∧ v c.id = true) ∧
  (∀ t ∈ db.tags, t.id ≠ "" ∧ v t.id = true) ∧
  (∀ r ∈ db.postsToTags,
    (∃ p ∈ db.posts, p.id = r.postId) ∧ ∃ t ∈ db.tags, t.id = r.tagId) ∧
  (∀ p ∈ db.posts, p.id ≠ freshPostId db.nextId)

theorem applyStmt_ok_inv {α : Type} {k : DB → Except Err (α × DB)}
    {db : DB} {fs : List (Option Err)} {a : α} {s' : St}
    (h : applyStmt k db fs = (.ok a, s')) :
    k db = .ok (a, s'.db) := by
  unfold applyStmt at h
  split at h
  · exact absurd h (by simp)
  · rename_i a2 db2 heq
    injection h with h1 h2
    injection h1 with h3
    subst h3
    subst h2
    exact heq

theorem applyStmt_error_db {α : Type} {k : DB → Except Err (α × DB)}
    {db : DB} {fs : List (Option Err)} {e : Err} {s' : St}
    (h : applyStmt k db fs = (.error e, s')) :
    s'.db = db := by
  unfold applyStmt at h
  split at h
  · injection h with h1 h2
    subst h2
    rfl
  · exact absurd h (by simp)

theorem runStmt_ok_inv {α : Type} {k : DB → Except Err (α × DB)} {s : St}
    {a : α} {s' : St} (h : runStmt k s = (.ok a, s')) :
    k s.db = .ok (a, s'.db) := by
  unfold runStmt at h
  split at h
  · exact applyStmt_ok_inv h
  · exact applyStmt_ok_inv h
  · exact absurd h (by simp)

theorem runStmt_error_db {α : Type} {k : DB → Except Err (α × DB)} {s : St}
    {e : Err} {s' : St} (h : runStmt k s = (.error e, s')) :
    s'.db = s.db := by
  unfold runStmt at h
  split at h
  · exact applyStmt_error_db h
  · exact applyStmt_error_db h
  · injection h with h1 h2
    subst h2
    rfl

theorem insertPostStmt_ok_inv {v : String → Bool}
    {title content : String} {published : Option Bool}
    {categoryId : Option String} {s : St} {post : PostRow} {s' : St}
    (h : insertPostStmt v title content published categoryId s
      = (.ok post, s')) :
    post.categoryId = categoryId ∧ post.id = freshPostId s.db.nextId ∧
    s'.db.posts = s.db.posts ++ [post] ∧
    s'.db.categories = s.db.categories ∧ s'.db.tags = s.db.tags ∧
    s'.db.postsToTags = s.db.postsToTags ∧
    fkMissing s.db categoryId = false := by
  unfold insertPostStmt at h
  have h2 := runStmt_ok_inv h
  unfold insertPostBody at h2
  split at h2
  · exact absurd h2 (by simp)
  split at h2
  · exact absurd h2 (by simp)
  split at h2
  · exact absurd h2 (by simp)
  rename_i hfk
  injection h2 with h3
  injection h3 with hrow hdb
  subst hrow
  rw [← hdb]
  refine ⟨rfl, rfl, rfl, rfl, rfl, rfl, ?_⟩
  simpa using hfk

theorem updatePostStmt_ok_inv {v : String → Bool}
    {id title content : String} {published : Option Bool}
    {categoryId : Option String} {s : St} {rows : List PostRow} {s' : St}
    (h : updatePostStmt v id title content published categoryId s
      = (.ok rows, s')) :
    s'.db.postsToTags = s.db.postsToTags ∧ s'.db.tags = s.db.tags ∧
    s'.db.categories = s.db.categories ∧
    (∀ p ∈ rows, p.id = id) ∧ v id = true := by
  unfold updatePostStmt at h
  have h2 := runStmt_ok_inv h
  unfold updatePostBody at h2
  split at h2
  · exact absurd h2 (by simp)
  rename_i hvid
  split at h2
  · exact absurd h2 (by simp)
  split at h2
  · injection h2 with h3
    injection h3 with hrows hdb
    subst hrows
    rw [← hdb]
    refine ⟨rfl, rfl, rfl, ?_, ?_⟩
    · intro p hp
      exact absurd hp (List.not_mem_nil p)
    · simpa using hvid
  split at h2
  · exact absurd h2 (by simp)
  split at h2
  · exact absurd h2 (by simp)
  split at h2
  · exact absurd h2 (by simp)
  injection h2 with h3
  injection h3 with hrows hdb
  subst hrows
  rw [← hdb]
  refine ⟨rfl, rfl, rfl, ?_, ?_⟩
  · intro p hp
    simpa using (List.mem_filter.mp hp).2
  · simpa using hvid

theorem selectTagsStmt_ok_inv {v : String → Bool} {tagIds : List String}
    {s : St} {res : List TagRow} {s' : St}
    (h : selectTagsStmt v tagIds s = (.ok res, s')) :
    s'.db = s.db ∧ res = s.db.tags.filter (fun t => tagIds.contains t.id) := by
  unfold selectTagsStmt at h
  have h2 := runStmt_ok_inv h
  unfold selectTagsBody at h2
  split at h2
  · exact absurd h2 (by simp)
  injection h2 with h3
  injection h3 with hres hdb
  subst hres
  exact ⟨hdb.symm, rfl⟩

theorem insertPostsToTagsStmt_ok_inv {rows : List PostTagRow} {s : St}
    {u : Unit} {s' : St}
    (h : insertPostsToTagsStmt rows s = (.ok u, s')) :
    s'.db.postsToTags = s.db.postsToTags ++ rows ∧
    s'.db.tags = s.db.tags ∧ s'.db.posts = s.db.posts ∧
    s'.db.categories = s.db.categories := by
  unfold insertPostsToTagsStmt at h
  split at h
  · exact absurd h (by simp)
  have h2 := runStmt_ok_inv h
  unfold insertPostsToTagsBody at h2
  split at h2
  · exact absurd h2 (by simp)
  injection h2 with h3
  injection h3 with hu hdb
  rw [← hdb]
  exact ⟨rfl, rfl, rfl, rfl⟩

theorem deletePostsToTagsStmt_ok_inv {v : String → Bool} {pid : String}
    {s : St} {u : Unit} {s' : St}
    (h : deletePostsToTagsStmt v pid s = (.ok u, s')) :
    s'.db.postsToTags = s.db.postsToTags.filter (fun r => r.postId != pid) ∧
    s'.db.tags = s.db.tags ∧ s'.db.posts = s.db.posts ∧
    s'.db.categories = s.db.categories := by
  unfold deletePostsToTagsStmt at h
  have h2 := runStmt_ok_inv h
  unfold deletePostsToTagsBody at h2
  split at h2
  · exact absurd h2 (by simp)
  injection h2 with h3
  injection h3 with hu hdb
  rw [← hdb]
  exact ⟨rfl, rfl, rfl, rfl⟩

theorem selectCategoryNameStmt_db {v : String → Bool} {cid : String}
    {s : St} {r : Except Err (List String)} {s' : St}
    (h : selectCategoryNameStmt v cid s = (r, s')) :
    s'.db = s.db := by
  unfold selectCategoryNameStmt at h
  rcases r with e | names
  · exact runStmt_error_db h
  · have h2 := runStmt_ok_inv h
    unfold selectCategoryNameBody at h2
    split at h2
    · exact absurd h2 (by simp)
    injection h2 with h3
    injection h3 with hres hdb
    exact hdb.symm

theorem deletePostStmt_ok_inv {v : String → Bool} {id : String}
    {s : St} {gone : List String} {s' : St}
    (h : deletePostStmt v id s = (.ok gone, s')) :
    gone = (s.db.posts.filter (fun p => p.id == id)).map (fun p => p.id) ∧
    s'.db.postsToTags = s.db.postsToTags.filter
      (fun r => !(gone.contains r.postId)) := by
  unfold deletePostStmt at h
  have h2 := runStmt_ok_inv h
  unfold deletePostBody at h2
  split at h2
  · exact absurd h2 (by simp)
  injection h2 with h3
  injection h3 with hgone hdb
  subst hgone
  rw [← hdb]
  exact ⟨rfl, rfl⟩

theorem updatePostCategoryStep_db {v : String → Bool} {post : PostRow}
    {tagNames : List String} {s : St} :
    (updatePostCategoryStep v post tagNames s).2.db = s.db := by
  unfold updatePostCategoryStep
  split
  · split
    · rfl
    · rcases h : selectCategoryNameStmt v _ s with ⟨r, s₂⟩
      have hdb := selectCategoryNameStmt_db h
      rcases r with e | names
      · simpa [h]
      · rcases names with _ | ⟨nm, rest⟩ <;> simpa [h]
  · rfl

theorem headMem {α : Type} {l : List α} {x : α} (h : l.head? = some x) :
    x ∈ l := by
  cases l <;> simp_all

theorem updatePost_ok_pt {v : String → Bool} {id : String} {a : UpdateArgs}
    {L : List String} {d : Option PostData} {s s' : St}
    (hL : a.tagIds = some L)
    (h : updatePost v id a s = ((d, none), s')) :
    s'.db.postsToTags
      = s.db.postsToTags.filter (fun r => r.postId != id)
        ++ (s.db.tags.filter (fun t => L.contains t.id)).map
             (fun t => { postId := id, tagId := t.id }) ∧
    s'.db.tags = s.db.tags := by
  unfold updatePost at h
  split at h
  · exact absurd h (by simp)
  rename_i rows s1 hstmt
  obtain ⟨hpt1, htags1, hcats1, hid1, hv1⟩ := updatePostStmt_ok_inv hstmt
  split at h
  · exact absurd h (by simp)
  rename_i post hhead
  have hpid : post.id = id := hid1 post (headMem hhead)
  split at h
  case h_2 habs => rw [hL] at habs; exact absurd habs (by simp)
  rename_i tagIds htag
  rw [hL] at htag
  injection htag with htag
  subst htag
  split at h
  · exact absurd h (by simp)
  rename_i u s2 hdel
  obtain ⟨hpt2, htags2, hposts2, hcats2⟩ := deletePostsToTagsStmt_ok_inv hdel
  split at h
  · -- non-empty tag id list: select then insert
    split at h
    · exact absurd h (by simp)
    rename_i selectedTags s3 hsel
    obtain ⟨hdb3, hselres⟩ := selectTagsStmt_ok_inv hsel
    split at h
    · exact absurd h (by simp)
    rename_i u2 s4 hins
    obtain ⟨hpt4, htags4, hposts4, hcats4⟩ := insertPostsToTagsStmt_ok_inv hins
    have hsnd := congrArg Prod.snd h
    dsimp only at hsnd
    have hstep : s'.db = s4.db := by
      rw [← hsnd]
      exact updatePostCategoryStep_db
    constructor
    · rw [hstep, hpt4, hdb3, hpt2, hpt1, hpid, hselres, htags2, htags1]
    · rw [hstep, htags4, hdb3, htags2, htags1]
  · -- empty tag id list: no insert
    rename_i hlen
    have hLnil : L = [] := by
      simpa using hlen
    subst hLnil
    have hsnd := congrArg Prod.snd h
    dsimp only at hsnd
    have hstep : s'.db = s2.db := by
      rw [← hsnd]
      exact updatePostCategoryStep_db
    constructor
    · rw [hstep, hpt2, hpt1, hpid]
      simp
    · rw [hstep, htags2, htags1]

theorem updatePost_ok_noTags {v : String → Bool} {id : String}
    {a : UpdateArgs} {d : Option PostData} {s s' : St}
    (hL : a.tagIds = none)
    (h : updatePost v id a s = ((d, none), s')) :
    s'.db.postsToTags = s.db.postsToTags ∧ s'.db.tags = s.db.tags := by
  unfold updatePost at h
  split at h
  · exact absurd h (by simp)
  rename_i rows s1 hstmt
  obtain ⟨hpt1, htags1, hcats1, hid1, hv1⟩ := updatePostStmt_ok_inv hstmt
  split at h
  · exact absurd h (by simp)
  rename_i post hhead
  split at h
  case h_1 _ habs => rw [hL] at habs; exact absurd habs (by simp)
  have hsnd := congrArg Prod.snd h
  dsimp only at hsnd
  have hstep : s'.db = s1.db := by
    rw [← hsnd]
    exact updatePostCategoryStep_db
  exact ⟨by rw [hstep, hpt1], by rw [hstep, htags1]⟩

theorem classifyGetPostById_mem (e : Err) :
    classifyGetPostById e = "post_not_found" ∨
    classifyGetPostById e = "cannot_get_post" := by
  unfold classifyGetPostById
  split <;> simp

theorem classifyCreatePost_mem (e : Err) :
    classifyCreatePost e = "duplicate_post_title" ∨
    classifyCreatePost e = "category_not_found" ∨
    classifyCreatePost e = "cannot_create_post" := by
  unfold classifyCreatePost
  split <;> simp

theorem classifyUpdatePost_mem (e : Err) :
    classifyUpdatePost e = "duplicate_post_title" ∨
    classifyUpdatePost e = "category_not_found" ∨
    classifyUpdatePost e = "cannot_update_post" := by
  unfold classifyUpdatePost
  split <;> simp

theorem classifyDeletePost_mem (e : Err) :
    classifyDeletePost e = "post_not_found" ∨
    classifyDeletePost e = "cannot_delete_post" := by
  unfold classifyDeletePost
  split <;> simp

theorem filterReplace (pt rows : List PostTagRow) (id : String)
    (hrows : ∀ r ∈ rows, r.postId = id) :
    ((pt.filter (fun r => r.postId != id)) ++ rows).filter
      (fun r => r.postId == id) = rows := by
  rw [List.filter_append]
  have h1 : (pt.filter (fun r => r.postId != id)).filter
      (fun r => r.postId == id) = [] := by
    rw [List.filter_eq_nil_iff]
    intro a ha
    have := (List.mem_filter.mp ha).2
    simp_all
  have h2 : rows.filter (fun r => r.postId == id) = rows := by
    rw [List.filter_eq_self]
    intro a ha
    simpa using hrows a ha
  rw [h1, h2, List.nil_append]

theorem resolvedRows_nodup {tags : List TagRow}
    (hnd : (tags.map (fun t => t.id)).Nodup)
    (q : TagRow → Bool) (id : String) :
    ((tags.filter q).map
      (fun t => ({ postId := id, tagId := t.id } : PostTagRow))).Nodup := by
  have hsub : List.Sublist ((tags.filter q).map (fun t => t.id))
      (tags.map (fun t => t.id)) :=
    (List.filter_sublist _).map _
  have h1 : ((tags.filter q).map (fun t => t.id)).Nodup := hnd.sublist hsub
  have h2 : ((tags.filter q).map
      (fun t => ({ postId := id, tagId := t.id } : PostTagRow))).map
      (fun r => r.tagId) = (tags.filter q).map (fun t => t.id) := by
    simp [List.map_map]
  exact List.Nodup.of_map (fun r => r.tagId) (h2 ▸ h1)

theorem memRow_eq_false {l : List PostTagRow} {r : PostTagRow} :
    memRow l r = false ↔ r ∉ l := by
  unfold memRow
  simp only [List.any_eq_false, decide_eq_true_eq]
  constructor
  · intro h hr
    exact absurd rfl (h r hr)
  · intro h x hx he
    exact h (he ▸ hx)

theorem hasDupRow_eq_false_of_nodup {l : List PostTagRow} (h : l.Nodup) :
    hasDupRow l = false := by
  induction l with
  | nil => rfl
  | cons r rest ih =>
    rw [hasDupRow]
    have hnd := List.nodup_cons.mp h
    rw [memRow_eq_false.mpr hnd.1, ih hnd.2]
    rfl

/-- Identifier validator that accepts every string. -/
def vAll : String → Bool := fun _ => true

/-- Identifier validator under which the store rejects the string "bad" as
a malformed identifier. -/
def vNoBad : String → Bool := fun s => s != "bad"

/-- Store with one category-less post and one tag, no associations. -/
def dbOnePost : DB :=
  { posts := [{ id := "p1", title := "Old", normalizedTitle := "old",
                slug := "old", content := "c", published := false,
                createdAt := 0, updatedAt := 0, categoryId := none }],
    categories := [], tags := [{ id := "t1", name := "tag one" }],
    postsToTags := [], nextId := 1, now := 5 }

/-- Empty store. -/
def dbEmpty : DB :=
  { posts := [], categories := [], tags := [], postsToTags := [],
    nextId := 0, now := 0 }

/-- Update arguments supplying tagIds ["t1"] and no category. -/
def updArgsT1 : UpdateArgs :=
  { title := "New", content := "c2", categoryId := none,
    published := some true, tagIds := some ["t1"] }

/-- C1: the spec requires a successful updatePost to return the resolved
tag name list in both branches of its final step.  The code contradicts
this: evaluated at a successful update of a post without a category and
with tagIds ["t1"], the call succeeds and writes the association row, yet
the returned object carries no tags property at all (tags = none), so the
resolved tag names are returned only in the with-category branch. -/
theorem updatePost_noCategory_success_omits_tags :
    (updatePost vAll "p1" updArgsT1 { db := dbOnePost, faults := [] }).1.2
      = none ∧
    ((updatePost vAll "p1" updArgsT1
        { db := dbOnePost, faults := [] }).1.1.map (fun d => d.tags))
      = some none ∧
    (updatePost vAll "p1" updArgsT1
        { db := dbOnePost, faults := [] }).2.db.postsToTags
      = [{ postId := "p1", tagId := "t1" }] := by
  refine ⟨?_, ?_, ?_⟩ <;> rfl

/-- Create arguments with no category and a single unknown tag id. -/
def crtArgsUnknownTag : CreateArgs :=
  { title := "T", content := "c", categoryId := none, published := none,
    tagIds := ["zz"] }

/-- Store for the non-atomic update scenario: post p1 associated with tag
t1. -/
def dbPostWithTag : DB :=
  { posts := [{ id := "p1", title := "Old", normalizedTitle := "old",
                slug := "old", content := "c", published := false,
                createdAt := 0, updatedAt := 0, categoryId := none }],
    categories := [], tags := [{ id := "t1", name := "tag one" }],
    postsToTags := [{ postId := "p1", tagId := "t1" }],
    nextId := 1, now := 0 }

/-- Update arguments whose tagIds list holds only the malformed id "bad". -/
def updArgsBadTag : UpdateArgs :=
  { title := "N", content := "c", categoryId := none,
    published := some true, tagIds := some ["bad"] }

/-- C3: the spec requires every failed createPost or updatePost to leave
the stored post and association rows unchanged (single atomic unit with
rollback).  The code wraps neither operation in a transaction, and this
evaluates both at failing inputs: a create whose supplied tag ids all miss
the tag table fails with cannot_create_post yet leaves the freshly
inserted post row behind, and an update whose tagIds list holds a
malformed id fails with category_not_found after the post row was updated
and all its association rows were deleted. -/
theorem failed_create_update_mutate_storage :
    ((createPost vAll crtArgsUnknownTag { db := dbEmpty, faults := [] }).1.2
        = some "cannot_create_post" ∧
      (createPost vAll crtArgsUnknownTag
          { db := dbEmpty, faults := [] }).2.db.posts.length = 1) ∧
    ((updatePost vNoBad "p1" updArgsBadTag
          { db := dbPostWithTag, faults := [] }).1.2
        = some "category_not_found" ∧
      (updatePost vNoBad "p1" updArgsBadTag
          { db := dbPostWithTag, faults := [] }).2.db.postsToTags = [] ∧
      dbPostWithTag.postsToTags ≠ [] ∧
      (updatePost vNoBad "p1" updArgsBadTag
          { db := dbPostWithTag, faults := [] }).2.db.posts
        ≠ dbPostWithTag.posts) := by
  refine ⟨⟨?_, ?_⟩, ?_, ?_, ?_, ?_⟩ <;> decide

/-- Execution state injecting one storage failure with the raw engine code
57014 before the first statement. -/
def stWithFault : St :=
  { db := dbEmpty, faults := [some { code := some "57014" }] }

/-- C4 counterexample: the claim extends the catch-and-classify policy to
all five operations, but getPosts (list) has no try/catch: a storage
failure with the raw engine code 57014 raised during its single statement
propagates to the caller as the raw error instead of a domain error
kind. -/
theorem getPosts_propagates_raw_error :
    (getPosts stWithFault).1 = Except.error { code := some "57014" } := by
  rfl

/-- Store holding one tag t1 (for the unknown-tag-ids create scenario). -/
def dbOneTag : DB :=
  { posts := [], categories := [], tags := [{ id := "t1", name := "tag one" }],
    postsToTags := [], nextId := 0, now := 0 }

/-- C8 counterexample: the claim says a categoryless createPost whose
non-empty tagIds contain no existing id still succeeds, silently dropping
the unknown ids.  Evaluated at tagIds = ["zz"] with only tag t1 in the
table, the resolved tag set is empty, the association insert is attempted
with an empty values list, which the storage client rejects, and the call
returns cannot_create_post instead of succeeding. -/
theorem createPost_all_unknown_tagIds_fails :
    (createPost vAll crtArgsUnknownTag { db := dbOneTag, faults := [] }).1.2
      = some "cannot_create_post" := by
  rfl

/-- Update arguments with no tagIds and no category. -/
def updArgsPlain : UpdateArgs :=
  { title := "T", content := "c", categoryId := none,
    published := some true, tagIds := none }

/-- C10 counterexample: the claim says every updatePost whose id matches no
post row returns cannot_update_post.  For the malformed id "bad" (which
matches no post row) the update statement itself is rejected with the
invalid-identifier code 22P02, which the update classifier maps to
category_not_found, not cannot_update_post. -/
theorem updatePost_malformed_id_category_not_found :
    (updatePost vNoBad "bad" updArgsPlain { db := dbEmpty, faults := [] }).1
      = (none, some "category_not_found") := by
  rfl

theorem getPostById_errorCodes (v : String → Bool) (id : String) (s : St) :
    (getPostById v id s).1.2 = none ∨
    (getPostById v id s).1.2 = some "post_not_found" ∨
    (getPostById v id s).1.2 = some "cannot_get_post" := by
  unfold getPostById
  repeat' split
  all_goals simp
  all_goals exact classifyGetPostById_mem _

theorem createPost_errorCodes (v : String → Bool) (a : CreateArgs) (s : St) :
    (createPost v a s).1.2 = none ∨
    (createPost v a s).1.2 = some "duplicate_post_title" ∨
    (createPost v a s).1.2 = some "category_not_found" ∨
    (createPost v a s).1.2 = some "cannot_create_post" := by
  unfold createPost createPostTagBranch
  repeat' split
  all_goals simp
  all_goals exact classifyCreatePost_mem _

theorem updatePost_errorCodes (v : String → Bool) (id : String)
    (a : UpdateArgs) (s : St) :
    (updatePost v id a s).1.2 = none ∨
    (updatePost v id a s).1.2 = some "duplicate_post_title" ∨
    (updatePost v id a s).1.2 = some "category_not_found" ∨
    (updatePost v id a s).1.2 = some "cannot_update_post" := by
  unfold updatePost updatePostCategoryStep
  repeat' split
  all_goals simp
  all_goals exact classifyUpdatePost_mem _

theorem deletePost_errorCodes (v : String → Bool) (id : String) (s : St) :
    (deletePost v id s).1.2 = none ∨
    (deletePost v id s).1.2 = some "post_not_found" ∨
    (deletePost v id s).1.2 = some "cannot_delete_post" := by
  unfold deletePost
  repeat' split
  all_goals simp
  all_goals exact classifyDeletePost_mem _

/-- C4 amended claim: every storage-engine failure raised during
getPostById, createPost, updatePost or deletePost is caught inside the
repository and surfaces as an error kind from that operation closed set
(the operations are total functions into data-or-domain-error results,
for every store, every fault schedule and every argument); getPosts alone
has no handler and lets the raw storage error cross the repository
boundary. -/
theorem four_ops_classify_every_failure :
    (∀ (v : String → Bool) (id : String) (s : St),
      (getPostById v id s).1.2 = none ∨
      (getPostById v id s).1.2 = some "post_not_found" ∨
      (getPostById v id s).1.2 = some "cannot_get_post") ∧
    (∀ (v : String → Bool) (a : CreateArgs) (s : St),
      (createPost v a s).1.2 = none ∨
      (createPost v a s).1.2 = some "duplicate_post_title" ∨
      (createPost v a s).1.2 = some "category_not_found" ∨
      (createPost v a s).1.2 = some "cannot_create_post") ∧
    (∀ (v : String → Bool) (id : String) (a : UpdateArgs) (s : St),
      (updatePost v id a s).1.2 = none ∨
      (updatePost v id a s).1.2 = some "duplicate_post_title" ∨
      (updatePost v id a s).1.2 = some "category_not_found" ∨
      (updatePost v id a s).1.2 = some "cannot_update_post") ∧
    (∀ (v : String → Bool) (id : String) (s : St),
      (deletePost v id s).1.2 = none ∨
      (deletePost v id s).1.2 = some "post_not_found" ∨
      (deletePost v id s).1.2 = some "cannot_delete_post") :=
  ⟨getPostById_errorCodes, createPost_errorCodes, updatePost_errorCodes,
    deletePost_errorCodes⟩

/-- C2: for every createPost call that supplies a categoryId, over a
well-formed store, the association table is untouched by the call —
whatever the outcome, so in particular whenever the post-row insert
succeeds — because the with-category branch returns before any tag
resolution or association insert: category resolution and tag association
are mutually exclusive. -/
theorem createPost_with_category_never_associates_tags
    (v : String → Bool) (db : DB) (fs : List (Option Err))
    (title content : String) (published : Option Bool) (cid : String)
    (tagIds : List String) (hWF : WF v db) :
    (createPost v { title := title, content := content,
                    categoryId := some cid, published := published,
                    tagIds := tagIds }
      { db := db, faults := fs }).2.db.postsToTags = db.postsToTags := by
  unfold createPost
  split
  · rename_i e s1 heq
    unfold insertPostStmt at heq
    have hdb : s1.db = db := runStmt_error_db heq
    simp [hdb]
  · rename_i post s1 heq
    obtain ⟨hcat, hid, hposts, hcats, htags, hpt, hfk⟩ :=
      insertPostStmt_ok_inv heq
    simp only [hcat]
    rcases hemp : cid.isEmpty with _ | _
    · simp only [hemp, Bool.false_eq_true, if_false]
      split
      · rename_i e s2 hsel
        have h2 : s2.db = s1.db := selectCategoryNameStmt_db hsel
        simp [h2, hpt]
      · rename_i names s2 hsel
        have h2 : s2.db = s1.db := selectCategoryNameStmt_db hsel
        split
        · simp [h2, hpt]
        · simp [h2, hpt]
    · exfalso
      have hcid : cid = "" := by
        cases cid
        simp [String.isEmpty_iff] at hemp
        simp [hemp]
      unfold fkMissing at hfk
      simp at hfk
      obtain ⟨c, hc, hceq⟩ := hfk
      exact (hWF.2.2.2.2.1 c hc).1 (hceq.trans hcid)

instance (v : String → Bool) (db : DB) : Decidable (WF v db) := by
  unfold WF
  infer_instance

/-- Well-formed store with a post, a category, a tag and one association,
used to instantiate the hypotheses of the universally quantified
theorems. -/
def dbFull : DB :=
  { posts := [{ id := "p9", title := "Old", normalizedTitle := "old",
                slug := "old", content := "c", published := false,
                createdAt := 0, updatedAt := 0, categoryId := none }],
    categories := [{ id := "c1", name := "cat" }],
    tags := [{ id := "t1", name := "tag one" }],
    postsToTags := [{ postId := "p9", tagId := "t1" }],
    nextId := 0, now := 7 }

/-- Witness for C2: the well-formedness hypothesis holds of a concrete
store with a category and an association row, and the call leaves the
association table unchanged. -/
theorem createPost_with_category_never_associates_tags_sat :
    WF vAll dbFull ∧
    (createPost vAll { title := "T", content := "c",
                       categoryId := some "c1", published := none,
                       tagIds := ["t1"] }
      { db := dbFull, faults := [] }).2.db.postsToTags
      = dbFull.postsToTags :=
  ⟨by decide, createPost_with_category_never_associates_tags vAll dbFull []
    "T" "c" none "c1" ["t1"] (by decide)⟩

/-- C6: after a successful deletePost of id P, the association table of the
resulting store holds zero rows whose postId is P — the storage-level
cascade (modelled from the spec, the schema file being outside src/)
removes every association row of the deleted post. -/
theorem deletePost_cascades_associations
    (v : String → Bool) (id : String) (s : St)
    (h : (deletePost v id s).1.2 = none) :
    ((deletePost v id s).2.db.postsToTags.filter
      (fun r => r.postId == id)) = [] := by
  rcases hres : deletePost v id s with ⟨⟨d, ec⟩, s1⟩
  rw [hres] at h
  dsimp only at h
  subst h
  unfold deletePost at hres
  split at hres
  · exact absurd hres (by simp)
  rename_i gone s2 hdel
  split at hres
  · exact absurd hres (by simp)
  rename_i pid hhead
  obtain ⟨hgone, hpt⟩ := deletePostStmt_ok_inv hdel
  injection hres with h1 h2
  subst h2
  rw [hpt]
  rw [List.filter_eq_nil_iff]
  intro r hr hbeq
  have hmem := List.mem_filter.mp hr
  have hid : r.postId = id := by simpa using hbeq
  have hin : id ∈ gone := by
    have hpidmem := headMem hhead
    have hpe : pid = id := by
      rw [hgone] at hpidmem
      obtain ⟨p, hp, hpe⟩ := List.mem_map.mp hpidmem
      have hpp := (List.mem_filter.mp hp).2
      simp only [beq_iff_eq] at hpp
      rw [← hpe, hpp]
    rw [← hpe]
    exact headMem hhead
  have hc := hmem.2
  rw [hid] at hc
  simp at hc
  exact hc hin

/-- Witness for C6: deleting post p9, which has one association row, from
the concrete store succeeds and leaves no association row with postId
p9. -/
theorem deletePost_cascades_associations_sat :
    (deletePost vAll "p9" { db := dbFull, faults := [] }).1.2 = none ∧
    ((deletePost vAll "p9"
        { db := dbFull, faults := [] }).2.db.postsToTags.filter
      (fun r => r.postId == "p9")) = [] :=
  ⟨by decide, deletePost_cascades_associations vAll "p9"
    { db := dbFull, faults := [] } (by decide)⟩

/-- C7: for every successful updatePost call, if tagIds was supplied
(including the empty list) the final association set of the post is
exactly the supplied tag ids that exist in the tag table, all prior
associations having been removed first; if tagIds was omitted the
association table is exactly what it was before the call. -/
theorem updatePost_replaces_or_preserves_tag_set
    (v : String → Bool) (id : String) (a : UpdateArgs) (s : St) :
    (∀ L, a.tagIds = some L →
      (updatePost v id a s).1.2 = none →
      ((updatePost v id a s).2.db.postsToTags.filter
          (fun r => r.postId == id))
        = (s.db.tags.filter (fun t => L.contains t.id)).map
            (fun t => { postId := id, tagId := t.id })) ∧
    (a.tagIds = none →
      (updatePost v id a s).1.2 = none →
      (updatePost v id a s).2.db.postsToTags = s.db.postsToTags) := by
  constructor
  · intro L hL hok
    rcases hres : updatePost v id a s with ⟨⟨d, ec⟩, s1⟩
    rw [hres] at hok
    dsimp only at hok
    subst hok
    obtain ⟨hpt, htags⟩ := updatePost_ok_pt hL hres
    rw [hpt]
    refine filterReplace _ _ _ ?_
    intro r hr
    obtain ⟨t, ht, hte⟩ := List.mem_map.mp hr
    rw [← hte]
  · intro hL hok
    rcases hres : updatePost v id a s with ⟨⟨d, ec⟩, s1⟩
    rw [hres] at hok
    dsimp only at hok
    subst hok
    exact (updatePost_ok_noTags hL hres).1

/-- Witness for C7: both conjuncts instantiated — updating p1 with
tagIds ["t1"] succeeds and leaves exactly the association row (p1, t1),
and updating p9 with tagIds omitted succeeds and leaves the association
table unchanged. -/
theorem updatePost_replaces_or_preserves_tag_set_sat :
    (((updatePost vAll "p1" updArgsT1
        { db := dbOnePost, faults := [] }).2.db.postsToTags.filter
          (fun r => r.postId == "p1"))
      = (dbOnePost.tags.filter (fun t => (["t1"] : List String).contains t.id)).map
          (fun t => { postId := "p1", tagId := t.id })) ∧
    ((updatePost vAll "p9" updArgsPlain
        { db := dbFull, faults := [] }).2.db.postsToTags
      = dbFull.postsToTags) :=
  ⟨(updatePost_replaces_or_preserves_tag_set vAll "p1" updArgsT1
      { db := dbOnePost, faults := [] }).1 ["t1"] rfl (by decide),
   (updatePost_replaces_or_preserves_tag_set vAll "p9" updArgsPlain
      { db := dbFull, faults := [] }).2 rfl (by decide)⟩

/-- C9: performing updatePost twice in a row with the same supplied tagIds
list, both calls succeeding over a store whose tag ids are distinct,
leaves exactly one association row per existing tag of the list: the
association rows of the post are exactly the resolved list, without
duplicates and without loss. -/
theorem updatePost_same_tagIds_twice_idempotent
    (v : String → Bool) (id : String) (a : UpdateArgs) (L : List String)
    (db : DB) (hL : a.tagIds = some L)
    (hnd : (db.tags.map (fun t => t.id)).Nodup)
    (h1 : (updatePost v id a { db := db, faults := [] }).1.2 = none)
    (h2 : (updatePost v id a
        (updatePost v id a { db := db, faults := [] }).2).1.2 = none) :
    ((updatePost v id a
        (updatePost v id a
          { db := db, faults := [] }).2).2.db.postsToTags.filter
      (fun r => r.postId == id))
      = (db.tags.filter (fun t => L.contains t.id)).map
          (fun t => { postId := id, tagId := t.id }) ∧
    ((updatePost v id a
        (updatePost v id a
          { db := db, faults := [] }).2).2.db.postsToTags.filter
      (fun r => r.postId == id)).Nodup := by
  rcases hr1 : updatePost v id a { db := db, faults := [] }
    with ⟨⟨d1, ec1⟩, s1⟩
  rw [hr1] at h1 h2
  dsimp only at h1 h2 ⊢
  subst h1
  obtain ⟨hpt1, htags1⟩ := updatePost_ok_pt hL hr1
  rcases hr2 : updatePost v id a s1 with ⟨⟨d2, ec2⟩, s2⟩
  rw [hr2] at h2
  dsimp only at h2 ⊢
  subst h2
  obtain ⟨hpt2, htags2⟩ := updatePost_ok_pt hL hr2
  dsimp only at hpt1 htags1
  have hfilter : (s2.db.postsToTags.filter (fun r => r.postId == id))
      = (s1.db.tags.filter (fun t => L.contains t.id)).map
          (fun t => { postId := id, tagId := t.id }) := by
    rw [hpt2]
    refine filterReplace _ _ _ ?_
    intro r hr
    obtain ⟨t, ht, hte⟩ := List.mem_map.mp hr
    rw [← hte]
  rw [hfilter, htags1]
  exact ⟨rfl, resolvedRows_nodup hnd _ id⟩

/-- Witness for C9: updating p1 twice with tagIds ["t1"], both calls
succeeding over the one-tag store, leaves exactly the association row
(p1, t1), without duplicates. -/
theorem updatePost_same_tagIds_twice_idempotent_sat :
    ((["t1"] : List String) = ["t1"]) ∧
    ((updatePost vAll "p1" updArgsT1
        (updatePost vAll "p1" updArgsT1
          { db := dbOnePost, faults := [] }).2).2.db.postsToTags.filter
      (fun r => r.postId == "p1"))
      = (dbOnePost.tags.filter (fun t => (["t1"] : List String).contains t.id)).map
          (fun t => { postId := "p1", tagId := t.id }) ∧
    ((updatePost vAll "p1" updArgsT1
        (updatePost vAll "p1" updArgsT1
          { db := dbOnePost, faults := [] }).2).2.db.postsToTags.filter
      (fun r => r.postId == "p1")).Nodup :=
  ⟨rfl,
    (updatePost_same_tagIds_twice_idempotent vAll "p1" updArgsT1 ["t1"]
      dbOnePost rfl (by decide) (by decide) (by decide)).1,
    (updatePost_same_tagIds_twice_idempotent vAll "p1" updArgsT1 ["t1"]
      dbOnePost rfl (by decide) (by decide) (by decide)).2⟩

/-- C10 amended: an updatePost call whose id the store accepts as well
formed (and whose categoryId parameter, when present, is also well formed)
but which matches no post row returns (null, cannot_update_post): the
update statement returns no row, the destructured row is undefined, and
the property access on it raises a code-less error that reaches the
generic fallback of the update classifier; the store is unchanged.  A
malformed id instead surfaces as category_not_found. -/
theorem updatePost_no_matching_row_cannot_update
    (v : String → Bool) (db : DB) (id : String) (a : UpdateArgs)
    (hv : v id = true) (hcat : invalidParam v a.categoryId = false)
    (hmiss : db.posts.any (fun p => p.id == id) = false) :
    updatePost v id a { db := db, faults := [] }
      = ((none, some "cannot_update_post"), { db := db, faults := [] }) := by
  unfold updatePost updatePostStmt runStmt applyStmt updatePostBody
  simp [hv, hcat, hmiss, classifyUpdatePost]

/-- Witness for C10: updating the well-formed but absent id "zz" over the
post-less store returns cannot_update_post and leaves the store
unchanged. -/
theorem updatePost_no_matching_row_cannot_update_sat :
    updatePost vAll "zz" updArgsPlain { db := dbOneTag, faults := [] }
      = ((none, some "cannot_update_post"),
         { db := dbOneTag, faults := [] }) :=
  updatePost_no_matching_row_cannot_update vAll dbOneTag "zz" updArgsPlain
    (by decide) (by decide) (by decide)

/-- C5: the getPostById contract — a malformed id (rejected by the store)
yields post_not_found; a well-formed id matching no row yields
post_not_found; a storage failure whose code is not the invalid-identifier
code yields cannot_get_post; and on success the data carries the post row
with its resolved category id, left-joined category name and resolved tag
name list. -/
theorem getPostById_contract :
    (∀ (v : String → Bool) (db : DB) (id : String), v id = false →
      (getPostById v id { db := db, faults := [] }).1
        = (none, some "post_not_found")) ∧
    (∀ (v : String → Bool) (db : DB) (id : String), v id = true →
      db.posts.filter (fun p => p.id == id) = [] →
      (getPostById v id { db := db, faults := [] }).1
        = (none, some "post_not_found")) ∧
    (∀ (v : String → Bool) (db : DB) (id : String) (e : Err)
        (fs : List (Option Err)), e.code ≠ some "22P02" →
      (getPostById v id { db := db, faults := some e :: fs }).1
        = (none, some "cannot_get_post")) ∧
    (∀ (v : String → Bool) (db : DB) (id : String) (p : PostRow) (e : Err),
      v id = true → db.posts.filter (fun p2 => p2.id == id) = [p] →
      e.code ≠ some "22P02" →
      (getPostById v id { db := db, faults := [none, some e] }).1
        = (none, some "cannot_get_post")) ∧
    (∀ (v : String → Bool) (db : DB) (id : String) (p : PostRow),
      v id = true → db.posts.filter (fun p2 => p2.id == id) = [p] →
      (getPostById v id { db := db, faults := [] }).1
        = (some (mkData p (joinName db p.categoryId)
            (some (tagNamesFor db p.id))), none)) := by
  refine ⟨?_, ?_, ?_, ?_, ?_⟩
  · intro v db id hv
    unfold getPostById selectPostByIdStmt runStmt applyStmt selectPostByIdBody
    simp [hv, classifyGetPostById]
  · intro v db id hv hfilter
    unfold getPostById selectPostByIdStmt runStmt applyStmt selectPostByIdBody
    simp [hv, hfilter, classifyGetPostById]
  · intro v db id e fs hcode
    unfold getPostById selectPostByIdStmt runStmt
    suffices hcls : classifyGetPostById e = "cannot_get_post" by
      simp [hcls]
    unfold classifyGetPostById
    split
    · rename_i heq
      exact absurd heq hcode
    · rfl
  · intro v db id p e hv hfilter hcode
    have hp : p ∈ db.posts.filter (fun p2 => p2.id == id) := by
      rw [hfilter]
      exact List.mem_singleton_self p
    have hpid : p.id = id := by
      simpa using (List.mem_filter.mp hp).2
    have hcls : classifyGetPostById e = "cannot_get_post" := by
      unfold classifyGetPostById
      split
      · rename_i heq
        exact absurd heq hcode
      · rfl
    unfold getPostById selectPostByIdStmt runStmt applyStmt
      selectPostByIdBody selectTagNamesStmt selectTagNamesBody
    simp [hv, hfilter, hpid, hcls]
    unfold runStmt
    simp [hcls]
  · intro v db id p hv hfilter
    have hp : p ∈ db.posts.filter (fun p2 => p2.id == id) := by
      rw [hfilter]
      exact List.mem_singleton_self p
    have hpid : p.id = id := by
      simpa using (List.mem_filter.mp hp).2
    unfold getPostById selectPostByIdStmt runStmt applyStmt
      selectPostByIdBody selectTagNamesStmt selectTagNamesBody
    simp [hv, hfilter, hpid]
    unfold runStmt applyStmt
    simp

/-- Execution state injecting one storage failure with the connection
failure code 08006 before the first statement of a get. -/
def stGetFault : St :=
  { db := dbFull, faults := [some { code := some "08006" }] }

/-- The single post row of the dbFull store. -/
def p9row : PostRow :=
  { id := "p9", title := "Old", normalizedTitle := "old", slug := "old",
    content := "c", published := false, createdAt := 0, updatedAt := 0,
    categoryId := none }

/-- Witness for C5: the four clauses instantiated on the concrete store —
malformed id, absent id, injected non-22P02 failure, and a successful
lookup of p9. -/
theorem getPostById_contract_sat :
    (getPostById vNoBad "bad" { db := dbFull, faults := [] }).1
      = (none, some "post_not_found") ∧
    (getPostById vAll "zz" { db := dbFull, faults := [] }).1
      = (none, some "post_not_found") ∧
    (getPostById vAll "p9" stGetFault).1
      = (none, some "cannot_get_post") ∧
    (getPostById vAll "p9"
        { db := dbFull, faults := [none, some { code := some "08000" }] }).1
      = (none, some "cannot_get_post") ∧
    (getPostById vAll "p9" { db := dbFull, faults := [] }).1
      = (some (mkData p9row (joinName dbFull p9row.categoryId)
          (some (tagNamesFor dbFull p9row.id))), none) :=
  ⟨getPostById_contract.1 vNoBad dbFull "bad" (by decide),
   getPostById_contract.2.1 vAll dbFull "zz" (by decide) (by decide),
   getPostById_contract.2.2.1 vAll dbFull "p9" { code := some "08006" } []
     (by decide),
   getPostById_contract.2.2.2.1 vAll dbFull "p9" p9row
     { code := some "08000" } (by decide) (by decide) (by decide),
   getPostById_contract.2.2.2.2 vAll dbFull "p9" p9row (by decide)
     (by decide)⟩

/-- C8 amended: for a categoryless createPost over a well-formed store,
with a non-empty list of well-formed tag ids, no title collision and no
injected faults — when at least one supplied tag id exists in the tag
table the call succeeds, associating exactly the existing ids and
silently dropping the unknown ones; when none of the supplied ids exist
the association insert is attempted with an empty row list, which the
storage client rejects with a code-less error, so the call instead fails
with cannot_create_post. -/
theorem createPost_drops_unknown_tagIds
    (v : String → Bool) (db : DB) (title content : String)
    (published : Option Bool) (L : List String)
    (hWF : WF v db)
    (hdup : db.posts.any
      (fun p => p.normalizedTitle == normalizeString title) = false)
    (hvalid : L.any (fun t => !(v t)) = false)
    (hL : L ≠ []) :
    (db.tags.filter (fun t => L.contains t.id) ≠ [] →
      (createPost v { title := title, content := content,
                      categoryId := none, published := published,
                      tagIds := L } { db := db, faults := [] }).1
        = (some (mkData (newPostRow title content published none db) none
            (some ((db.tags.filter (fun t => L.contains t.id)).map
              (fun t => t.name)))), none) ∧
      (createPost v { title := title, content := content,
                      categoryId := none, published := published,
                      tagIds := L }
          { db := db, faults := [] }).2.db.postsToTags
        = db.postsToTags
          ++ (db.tags.filter (fun t => L.contains t.id)).map
               (fun t => { postId := freshPostId db.nextId,
                           tagId := t.id })) ∧
    (db.tags.filter (fun t => L.contains t.id) = [] →
      (createPost v { title := title, content := content,
                      categoryId := none, published := published,
                      tagIds := L } { db := db, faults := [] }).1.2
        = some "cannot_create_post") := by
  have hlen : 0 < L.length := List.length_pos.mpr hL
  constructor
  · intro hne
    have hie2 : ¬ ∀ a ∈ db.tags, a.id ∉ L := by
      intro hall
      apply hne
      rw [List.filter_eq_nil_iff]
      intro a ha
      simpa using hall a ha
    have hmem : ((db.tags.filter (fun t => decide (t.id ∈ L))).map
        (fun t => ({ postId := freshPostId db.nextId,
                     tagId := t.id } : PostTagRow))).any
        (fun r => memRow db.postsToTags r) = false := by
      rw [List.any_eq_false]
      intro r hr
      obtain ⟨t, ht, hte⟩ := List.mem_map.mp hr
      rw [Bool.not_eq_true, memRow_eq_false]
      intro hmem2
      have hrp : r.postId = freshPostId db.nextId := by rw [← hte]
      obtain ⟨p, hp, hpe⟩ := (hWF.2.2.2.2.2.2.1 r hmem2).1
      exact (hWF.2.2.2.2.2.2.2 p hp) (hpe.trans hrp)
    have hdupr : hasDupRow
        ((db.tags.filter (fun t => decide (t.id ∈ L))).map
          (fun t => ({ postId := freshPostId db.nextId,
                       tagId := t.id } : PostTagRow))) = false :=
      hasDupRow_eq_false_of_nodup (resolvedRows_nodup hWF.2.2.1 _ _)
    unfold createPost createPostTagBranch insertPostStmt selectTagsStmt
      insertPostsToTagsStmt runStmt applyStmt insertPostBody
      selectTagsBody insertPostsToTagsBody
    simp [invalidParam, fkMissing, hdup, hlen, hvalid, hie2, hmem, hdupr,
      newPostRow, mkData]
  · intro hnil
    have hnil2 : ∀ a ∈ db.tags, a.id ∉ L := by
      intro a ha hin
      have := List.filter_eq_nil_iff.mp hnil a ha
      simp at this
      exact this hin
    unfold createPost createPostTagBranch insertPostStmt selectTagsStmt
      insertPostsToTagsStmt runStmt applyStmt insertPostBody
      selectTagsBody
    simp [invalidParam, fkMissing, hdup, hlen, hvalid, newPostRow,
      classifyCreatePost]
    rw [if_pos hnil2]

/-- Witness for C8: over the concrete store and tagIds ["t1", "zz"] — t1
existing, zz unknown — the create succeeds, returning and associating
exactly t1; with tagIds ["zz"] alone the resolved set is empty and the
call fails with cannot_create_post. -/
theorem createPost_drops_unknown_tagIds_sat :
    ((createPost vAll { title := "T", content := "c", categoryId := none,
                        published := none, tagIds := ["t1", "zz"] }
        { db := dbFull, faults := [] }).1
      = (some (mkData (newPostRow "T" "c" none none dbFull) none
          (some ((dbFull.tags.filter
            (fun t => (["t1", "zz"] : List String).contains t.id)).map
              (fun t => t.name)))), none) ∧
     (createPost vAll { title := "T", content := "c", categoryId := none,
                        published := none, tagIds := ["t1", "zz"] }
        { db := dbFull, faults := [] }).2.db.postsToTags
      = dbFull.postsToTags
        ++ (dbFull.tags.filter
             (fun t => (["t1", "zz"] : List String).contains t.id)).map
             (fun t => { postId := freshPostId dbFull.nextId,
                         tagId := t.id })) ∧
    (createPost vAll { title := "T", content := "c", categoryId := none,
                       published := none, tagIds := ["zz"] }
        { db := dbFull, faults := [] }).1.2 = some "cannot_create_post" :=
  ⟨(createPost_drops_unknown_tagIds vAll dbFull "T" "c" none ["t1", "zz"]
      (by decide) (by decide) (by decide) (by decide)).1 (by decide),
   (createPost_drops_unknown_tagIds vAll dbFull "T" "c" none ["zz"]
      (by decide) (by decide) (by decide) (by decide)).2 (by decide)⟩

end BlogApi
